import Mathlib

/-!
Shallow embedding of `src/src/rail/estimation/classifier.py` (rail_base).

The file defines two stage classes:

* `CatClassifier`: model resolution (`open_model`) plus the shared
  `classify` protocol (bind input, run, finalize, return output handle);
* `PZClassifier`: the chunked processing loop (`run`), the output
  accumulator (`_do_chunk_output`), the finalizer (`_finalize_run`) and the
  abstract per-chunk hook (`_process_chunk`, which raises
  `NotImplementedError`).

The embedding models a run as a state transformer over `ClfState`, which
records whether `self._output_handle` is bound (it is `None` after
`__init__`) and the ordered trace of observable calls made on the output
handle and of the loop's own actions (`Ev`).  Python exceptions are
modelled by the `Option PyError` component of each step's result: `none`
means normal return, `some e` means the step raised `e`; the state paired
with the error is the state at the raise point, so partially written
output survives in the trace (no rollback).

The framework pieces that live in `rail.core` (RailStage) are not under
`src/`; where a claim depends on them they are modelled from the spec and
marked as such in their doc comments.
-/

set_option linter.unusedVariables false

namespace RailBase

/-- Python exceptions observable in this module: `AttributeError` (method
call on `None`), `NotImplementedError` (the base `_process_chunk`), and an
arbitrary error raised by a concrete classification routine, carrying an
opaque code so that unmodified propagation is expressible. -/
inductive PyError where
  | attributeError
  | notImplementedError
  | userError (code : Nat)
  deriving DecidableEq, Repr

/-- Observable events of one run, in program order.  `κ` is the type of a
chunk's class-assignment payload (`class_id` in the Python).
`procCall s e first` records the loop invoking `self._process_chunk(s, e,
test_data, first)`; `addHandle c` records `self.add_handle('output',
data=class_id)`; `initWrite len comm` records
`initialize_write(self._input_length, communicator=self.comm)`;
`setData c` records `set_data(class_id, partial=True)`; `writeChunk s e`
records `write_chunk(start, end)`; `gcCollect` records `gc.collect()`;
`finalizeWrite` records `finalize_write()`. -/
inductive Ev (κ : Type) where
  | procCall (s e : Nat) (first : Bool)
  | addHandle (c : κ)
  | initWrite (len : Nat) (comm : Option Nat)
  | setData (c : κ)
  | writeChunk (s e : Nat)
  | gcCollect
  | finalizeWrite
  deriving DecidableEq, Repr

/-- State of one `PZClassifier` instance during a run: whether
`self._output_handle` is bound (false models `None`), and the event trace
so far. -/
structure ClfState (κ : Type) where
  outputHandle : Bool
  events : List (Ev κ)
  deriving DecidableEq, Repr

variable {κ α ι μ : Type}

/-- Append one event to the trace. -/
def emitEv (st : ClfState κ) (e : Ev κ) : ClfState κ :=
  { st with events := st.events ++ [e] }

/-- State after `PZClassifier.__init__`: `self._output_handle = None` and
nothing observed yet. -/
def initState : ClfState κ :=
  { outputHandle := false, events := [] }

/-- Embeds `PZClassifier._do_chunk_output(class_id, start, end, first)`:
if `first`, bind a fresh output handle (`add_handle`) and call
`initialize_write` with the full input length and the communicator; then
on every call, `set_data(class_id, partial=True)` followed by
`write_chunk(start, end)`.  Calling `set_data` while `self._output_handle`
is `None` raises `AttributeError`. -/
def doChunkOutput (inputLength : Nat) (comm : Option Nat) (classId : κ)
    (start endIdx : Nat) (first : Bool) (st : ClfState κ) :
    ClfState κ × Option PyError :=
  let st1 :=
    if first then
      { outputHandle := true,
        events := st.events ++ [Ev.addHandle classId, Ev.initWrite inputLength comm] }
    else st
  if st1.outputHandle then
    ({ st1 with events := st1.events ++ [Ev.setData classId, Ev.writeChunk start endIdx] },
      none)
  else
    (st1, some PyError.attributeError)

/-- Embeds `PZClassifier._finalize_run`:
`self._output_handle.finalize_write()`.  If the handle is still `None`,
the attribute access raises `AttributeError`. -/
def finalizeRun (st : ClfState κ) : ClfState κ × Option PyError :=
  if st.outputHandle then
    ({ st with events := st.events ++ [Ev.finalizeWrite] }, none)
  else
    (st, some PyError.attributeError)

/-- Embeds the base `PZClassifier._process_chunk(start, end, data, first)`:
it unconditionally raises `NotImplementedError`, touching nothing. -/
def processChunk (s e : Nat) (data : α) (first : Bool) (st : ClfState κ) :
    ClfState κ × Option PyError :=
  (st, some PyError.notImplementedError)

/-- Modelled from the spec: `CatClassifier`'s per-chunk hook is not defined
in `classifier.py`; it would resolve through the framework base class
`RailStage` (`rail.core.stage`, not under `src/`).  Spec 4.5 states both
variants carry the base per-chunk contract and that the base contract
raises a not-implemented signal if a variant omits it. -/
def catProcessChunk (s e : Nat) (data : α) (first : Bool) (st : ClfState κ) :
    ClfState κ × Option PyError :=
  (st, some PyError.notImplementedError)

/-- Embeds the `for s, e, test_data in iterator` loop of
`PZClassifier.run`, parameterised by the subclass-supplied
`_process_chunk` routine `proc`.  Each iteration records the call
(`procCall`), runs `proc`, propagates any raised error immediately
(keeping the state at the raise point), sets `first = False`, and runs
`gc.collect()` before the next chunk. -/
def runLoop (proc : Nat → Nat → α → Bool → ClfState κ → ClfState κ × Option PyError) :
    List (Nat × Nat × α) → Bool → ClfState κ → ClfState κ × Option PyError
  | [], _, st => (st, none)
  | (s, e, d) :: rest, first, st =>
    let r := proc s e d first (emitEv st (Ev.procCall s e first))
    if r.2.isSome then r
    else runLoop proc rest false (emitEv r.1 Ev.gcCollect)

/-- Embeds `PZClassifier.run` started from an arbitrary instance state:
iterate over the chunks with `first = True` initially, then call
`self._finalize_run()`.  An error raised in the loop propagates and
`_finalize_run` is not reached. -/
def runFrom (proc : Nat → Nat → α → Bool → ClfState κ → ClfState κ × Option PyError)
    (chunks : List (Nat × Nat × α)) (st : ClfState κ) : ClfState κ × Option PyError :=
  let r := runLoop proc chunks true st
  if r.2.isSome then r
  else finalizeRun r.1

/-- Embeds `PZClassifier.run` on a freshly constructed instance
(`self._output_handle = None`). -/
def run (proc : Nat → Nat → α → Bool → ClfState κ → ClfState κ × Option PyError)
    (chunks : List (Nat × Nat × α)) : ClfState κ × Option PyError :=
  runFrom proc chunks initState

/-- Modelled from the spec: the Chunk Iterator contract of
`RailStage.input_iterator` (`rail.core.stage`, not under `src/`), spec
4.2: for total length `L` and chunk size `C` the start indices are `0, C,
2C, ...` below `L` and each end index is `min (start + C) L`. -/
def chunkRanges (L C : Nat) : List (Nat × Nat) :=
  (List.range ((L + C - 1) / C)).map (fun i => (i * C, min ((i + 1) * C) L))

/-- Modelled from the spec: the triples `(start, end, data)` yielded by
`RailStage.input_iterator('input')`, with `read s e` standing for the
chunk of rows `[s, e)` read from the bound input. -/
def inputIterator (L C : Nat) (read : Nat → Nat → α) : List (Nat × Nat × α) :=
  (chunkRanges L C).map (fun p => (p.1, p.2, read p.1 p.2))

/-- A conforming concrete subclass hook, per spec 4.3 step 3: compute the
chunk's class assignment with `assign` and delegate to
`_do_chunk_output(class_id, start, end, first)`. -/
def procVia (assign : Nat → Nat → α → κ) (inputLength : Nat) (comm : Option Nat)
    (s e : Nat) (d : α) (first : Bool) (st : ClfState κ) : ClfState κ × Option PyError :=
  doChunkOutput inputLength comm (assign s e d) s e first st

/-- A concrete subclass hook whose classification routine raises
`userError code` on every chunk whose start index satisfies `bad`, and
otherwise behaves like `procVia`. -/
def procFailing (bad : Nat → Bool) (code : Nat) (assign : Nat → Nat → α → κ)
    (inputLength : Nat) (comm : Option Nat)
    (s e : Nat) (d : α) (first : Bool) (st : ClfState κ) : ClfState κ × Option PyError :=
  if bad s then (st, some (PyError.userError code))
  else procVia assign inputLength comm s e d first st

/-- The canonical event trace of the loop body of `run` driven by
`procVia`, one block per chunk: the `procCall`, the first-chunk
allocation (`addHandle` and `initWrite`) when `first`, the
`setData`/`writeChunk` pair, and the trailing `gcCollect`. -/
def chunkEvents (assign : Nat → Nat → α → κ) (L : Nat) (comm : Option Nat) :
    List (Nat × Nat × α) → Bool → List (Ev κ)
  | [], _ => []
  | (s, e, d) :: rest, first =>
    [Ev.procCall s e first] ++
      (if first then [Ev.addHandle (assign s e d), Ev.initWrite L comm] else []) ++
      [Ev.setData (assign s e d), Ev.writeChunk s e, Ev.gcCollect] ++
      chunkEvents assign L comm rest false

/-- True exactly on `initWrite` events. -/
def isInitWrite : Ev κ → Bool
  | Ev.initWrite _ _ => true
  | _ => false

/-- True exactly on `addHandle` events. -/
def isAddHandle : Ev κ → Bool
  | Ev.addHandle _ => true
  | _ => false

/-- True exactly on `writeChunk` events. -/
def isWriteChunk : Ev κ → Bool
  | Ev.writeChunk _ _ => true
  | _ => false

/-- True exactly on `finalizeWrite` events. -/
def isFinalizeWrite : Ev κ → Bool
  | Ev.finalizeWrite => true
  | _ => false

/-- True exactly on `gcCollect` events. -/
def isGcCollect : Ev κ → Bool
  | Ev.gcCollect => true
  | _ => false

/-- Projects a `procCall` event to its arguments. -/
def getProcCall : Ev κ → Option (Nat × Nat × Bool)
  | Ev.procCall s e first => some (s, e, first)
  | _ => none

/-- The sequence of `(start, end, first)` arguments the loop passes to
`_process_chunk`: the chunks in iterator order, `first` true only on the
head. -/
def callSchedule : List (Nat × Nat × α) → Bool → List (Nat × Nat × Bool)
  | [], _ => []
  | (s, e, _) :: rest, first => (s, e, first) :: callSchedule rest false

/-- A model reference as accepted by `CatClassifier.open_model`'s `model`
keyword argument: Python `None`, a string, a `ModelHandle` (whose
`has_path` is modelled by the `Option` on its path), or any other
in-memory object. -/
inductive ModelRef (μ : Type) where
  | pynone
  | str (s : String)
  | handle (path : Option String) (data : μ)
  | obj (o : μ)
  deriving DecidableEq, Repr

/-- Modelled from the spec: what `RailStage.set_data` (`rail.core.stage`,
not under `src/`) leaves in `self.model`.  Spec 4.1: a path-like reference
binds a lazy path-backed reference; a handle's underlying data, or a raw
object, becomes the Model directly. -/
inductive ModelVal (μ : Type) where
  | pathBacked (path : String)
  | direct (o : μ)
  deriving DecidableEq, Repr

/-- The parts of a `CatClassifier` instance `open_model` can touch:
`self.model` and `self.config['model']`. -/
structure CatState (μ : Type) where
  model : Option (ModelVal μ)
  configModel : Option String
  deriving DecidableEq, Repr

/-- Embeds `CatClassifier.open_model`: `None` or the literal string
`'None'` clears the model; any other string binds a lazy path-backed
model via `set_data('model', data=None, path=model)` and records the
string in `self.config['model']`; a `ModelHandle` records its path in the
configuration when it has one and its data becomes the model; any other
object is attached directly. -/
def openModel (model : ModelRef μ) (st : CatState μ) : CatState μ :=
  match model with
  | ModelRef.pynone => { st with model := none }
  | ModelRef.str s =>
    if s = "None" then { st with model := none }
    else { model := some (ModelVal.pathBacked s), configModel := some s }
  | ModelRef.handle p d =>
    match p with
    | some pp => { model := some (ModelVal.direct d), configModel := some pp }
    | none => { st with model := some (ModelVal.direct d) }
  | ModelRef.obj o => { st with model := some (ModelVal.direct o) }

/-- One statement of a `classify(input_data)` body, as written in the
source: binding a named data slot, calling `self.run()`, calling
`self.finalize()`, or returning `self.get_handle(tag)`. -/
inductive ClassifyStep where
  | setDataSlot (tag : String)
  | runStage
  | finalizeStage
  | getHandle (tag : String)
  deriving DecidableEq, Repr

/-- The statements of `CatClassifier.classify(input_data)`, in program
order: `self.set_data('input', input_data)`; `self.run()`;
`self.finalize()`; `return self.get_handle('output')`. -/
def catClassifyBody : List ClassifyStep :=
  [ClassifyStep.setDataSlot "input", ClassifyStep.runStage,
   ClassifyStep.finalizeStage, ClassifyStep.getHandle "output"]

/-- The statements of `PZClassifier.classify(input_data)`, in program
order: `self.set_data('input', input_data)`; `self.run()`;
`self.finalize()`; `return self.get_handle('output')`. -/
def pzClassifyBody : List ClassifyStep :=
  [ClassifyStep.setDataSlot "input", ClassifyStep.runStage,
   ClassifyStep.finalizeStage, ClassifyStep.getHandle "output"]

/-- Embeds `PZClassifier.classify(input_data)` as observed on the output
handle: `set_data('input', input_data)` binds the input, so the chunk
iterator yields `chunksOf inputData`; `run()` is the embedded run starting
from the instance's current handle state with a fresh sink trace; the
framework `finalize()` and the `get_handle('output')` return emit no
output-handle events. -/
def pzClassify (proc : Nat → Nat → α → Bool → ClfState κ → ClfState κ × Option PyError)
    (chunksOf : ι → List (Nat × Nat × α)) (inputData : ι) (handle0 : Bool) :
    ClfState κ × Option PyError :=
  runFrom proc (chunksOf inputData) { outputHandle := handle0, events := [] }

/-- On the first chunk, `_do_chunk_output` binds the handle and emits
`addHandle`, `initWrite`, `setData`, `writeChunk` in that order. -/
theorem doChunkOutput_first (L : Nat) (comm : Option Nat) (c : κ) (s e : Nat)
    (st : ClfState κ) :
    doChunkOutput L comm c s e true st =
      ({ outputHandle := true,
         events := st.events ++
           [Ev.addHandle c, Ev.initWrite L comm, Ev.setData c, Ev.writeChunk s e] }, none) := by
  simp [doChunkOutput]

/-- On a later chunk with the handle bound, `_do_chunk_output` emits only
`setData` then `writeChunk`. -/
theorem doChunkOutput_later (L : Nat) (comm : Option Nat) (c : κ) (s e : Nat)
    (st : ClfState κ) (h : st.outputHandle = true) :
    doChunkOutput L comm c s e false st =
      ({ st with events := st.events ++ [Ev.setData c, Ev.writeChunk s e] }, none) := by
  simp [doChunkOutput, h]

/-- The loop driven by the conforming hook `procVia`, entered after the
first chunk (flag cleared, handle bound), never raises and appends
exactly the canonical trace `chunkEvents`. -/
theorem runLoop_procVia_later (assign : Nat → Nat → α → κ) (L : Nat) (comm : Option Nat) :
    ∀ (chunks : List (Nat × Nat × α)) (E : List (Ev κ)),
      runLoop (procVia assign L comm) chunks false { outputHandle := true, events := E } =
        ({ outputHandle := true, events := E ++ chunkEvents assign L comm chunks false },
          none) := by
  intro chunks
  induction chunks with
  | nil => intro E; simp [runLoop, chunkEvents]
  | cons c rest ih =>
    obtain ⟨s, e, d⟩ := c
    intro E
    simp [runLoop, procVia, doChunkOutput, emitEv, chunkEvents, ih]

/-- The loop driven by `procVia`, entered with `first = True` and any
handle state: on the first chunk the handle is (re)bound, so the loop
never raises and appends exactly the canonical trace. -/
theorem runLoop_procVia_first (assign : Nat → Nat → α → κ) (L : Nat) (comm : Option Nat)
    (chunks : List (Nat × Nat × α)) (b : Bool) (E : List (Ev κ)) :
    runLoop (procVia assign L comm) chunks true { outputHandle := b, events := E } =
      ({ outputHandle := b || !chunks.isEmpty,
         events := E ++ chunkEvents assign L comm chunks true }, none) := by
  cases chunks with
  | nil => simp [runLoop, chunkEvents]
  | cons c rest =>
    obtain ⟨s, e, d⟩ := c
    simp [runLoop, procVia, doChunkOutput, emitEv, chunkEvents,
      runLoop_procVia_later]

/-- A full `run` driven by `procVia` over at least one chunk completes
normally with the canonical trace followed by the single
`finalizeWrite`. -/
theorem run_procVia (assign : Nat → Nat → α → κ) (L : Nat) (comm : Option Nat)
    (c : Nat × Nat × α) (rest : List (Nat × Nat × α)) :
    run (procVia assign L comm) (c :: rest) =
      ({ outputHandle := true,
         events := chunkEvents assign L comm (c :: rest) true ++ [Ev.finalizeWrite] }, none) := by
  rw [run, runFrom, initState, runLoop_procVia_first]
  simp [finalizeRun]

/-- Like `run_procVia` but starting from an arbitrary handle state: the
first chunk rebinds the handle, so the result does not depend on it. -/
theorem runFrom_procVia (assign : Nat → Nat → α → κ) (L : Nat) (comm : Option Nat)
    (c : Nat × Nat × α) (rest : List (Nat × Nat × α)) (b : Bool) :
    runFrom (procVia assign L comm) (c :: rest) { outputHandle := b, events := [] } =
      ({ outputHandle := true,
         events := chunkEvents assign L comm (c :: rest) true ++ [Ev.finalizeWrite] }, none) := by
  rw [runFrom, runLoop_procVia_first]
  simp [finalizeRun]

/-- After the first chunk the canonical trace carries no further
`initWrite` event. -/
theorem chunkEvents_later_countP_initWrite (assign : Nat → Nat → α → κ) (L : Nat)
    (comm : Option Nat) :
    ∀ chunks : List (Nat × Nat × α),
      (chunkEvents assign L comm chunks false).countP isInitWrite = 0
  | [] => by simp [chunkEvents]
  | (s, e, d) :: rest => by
    simp [chunkEvents, List.countP_cons, List.countP_append, isInitWrite,
      chunkEvents_later_countP_initWrite assign L comm rest]

/-- After the first chunk the canonical trace carries no further
`addHandle` event. -/
theorem chunkEvents_later_countP_addHandle (assign : Nat → Nat → α → κ) (L : Nat)
    (comm : Option Nat) :
    ∀ chunks : List (Nat × Nat × α),
      (chunkEvents assign L comm chunks false).countP isAddHandle = 0
  | [] => by simp [chunkEvents]
  | (s, e, d) :: rest => by
    simp [chunkEvents, List.countP_cons, List.countP_append, isAddHandle,
      chunkEvents_later_countP_addHandle assign L comm rest]

/-- A nonempty canonical trace entered with the first-chunk flag carries
exactly one `initWrite` event. -/
theorem chunkEvents_first_countP_initWrite (assign : Nat → Nat → α → κ) (L : Nat)
    (comm : Option Nat) (c : Nat × Nat × α) (rest : List (Nat × Nat × α)) :
    (chunkEvents assign L comm (c :: rest) true).countP isInitWrite = 1 := by
  obtain ⟨s, e, d⟩ := c
  simp [chunkEvents, List.countP_cons, List.countP_append, isInitWrite,
    chunkEvents_later_countP_initWrite assign L comm rest]

/-- A nonempty canonical trace entered with the first-chunk flag carries
exactly one `addHandle` event. -/
theorem chunkEvents_first_countP_addHandle (assign : Nat → Nat → α → κ) (L : Nat)
    (comm : Option Nat) (c : Nat × Nat × α) (rest : List (Nat × Nat × α)) :
    (chunkEvents assign L comm (c :: rest) true).countP isAddHandle = 1 := by
  obtain ⟨s, e, d⟩ := c
  simp [chunkEvents, List.countP_cons, List.countP_append, isAddHandle,
    chunkEvents_later_countP_addHandle assign L comm rest]

/-- The loop body never emits `finalizeWrite`. -/
theorem chunkEvents_countP_finalizeWrite (assign : Nat → Nat → α → κ) (L : Nat)
    (comm : Option Nat) :
    ∀ (chunks : List (Nat × Nat × α)) (first : Bool),
      (chunkEvents assign L comm chunks first).countP isFinalizeWrite = 0
  | [], _ => by simp [chunkEvents]
  | (s, e, d) :: rest, first => by
    cases first <;>
      simp [chunkEvents, List.countP_cons, List.countP_append, isFinalizeWrite,
        chunkEvents_countP_finalizeWrite assign L comm rest false]

/-- The loop body emits exactly one `gcCollect` per chunk. -/
theorem chunkEvents_countP_gcCollect (assign : Nat → Nat → α → κ) (L : Nat)
    (comm : Option Nat) :
    ∀ (chunks : List (Nat × Nat × α)) (first : Bool),
      (chunkEvents assign L comm chunks first).countP isGcCollect = chunks.length
  | [], _ => by simp [chunkEvents]
  | (s, e, d) :: rest, first => by
    cases first <;>
      simp [chunkEvents, List.countP_cons, List.countP_append, isGcCollect,
        chunkEvents_countP_gcCollect assign L comm rest false]

/-- The `procCall` events of the canonical trace are exactly the call
schedule: the chunks in order, `first` true only on the head. -/
theorem chunkEvents_filterMap_getProcCall (assign : Nat → Nat → α → κ) (L : Nat)
    (comm : Option Nat) :
    ∀ (chunks : List (Nat × Nat × α)) (first : Bool),
      (chunkEvents assign L comm chunks first).filterMap getProcCall =
        callSchedule chunks first
  | [], _ => by simp [chunkEvents, callSchedule]
  | (s, e, d) :: rest, first => by
    cases first <;>
      simp [chunkEvents, callSchedule, List.filterMap_append, getProcCall,
        chunkEvents_filterMap_getProcCall assign L comm rest false]

/-- The loop driven by the failing hook, entered after the first chunk,
processes the good prefix normally and stops at the first bad chunk: the
trace ends with that chunk's `procCall`, and the raised error carries the
routine's own code. -/
theorem runLoop_procFailing_later (bad : Nat → Bool) (code : Nat)
    (assign : Nat → Nat → α → κ) (L : Nat) (comm : Option Nat)
    (s e : Nat) (d : α) (post : List (Nat × Nat × α)) (hs : bad s = true) :
    ∀ (pre : List (Nat × Nat × α)) (E : List (Ev κ)),
      (∀ x ∈ pre, bad x.1 = false) →
      runLoop (procFailing bad code assign L comm) (pre ++ (s, e, d) :: post) false
          { outputHandle := true, events := E } =
        ({ outputHandle := true,
           events := E ++ chunkEvents assign L comm pre false ++ [Ev.procCall s e false] },
          some (PyError.userError code))
  | [], E, hpre => by
    simp [runLoop, procFailing, hs, emitEv, chunkEvents]
  | (s0, e0, d0) :: pre1, E, hpre => by
    have h0 : bad s0 = false := hpre (s0, e0, d0) (List.mem_cons_self _ _)
    have hpre1 : ∀ x ∈ pre1, bad x.1 = false := fun x hx => hpre x (List.mem_cons_of_mem _ hx)
    have ih := fun E =>
      runLoop_procFailing_later bad code assign L comm s e d post hs pre1 E hpre1
    simp [runLoop, procFailing, h0, procVia, doChunkOutput, emitEv, chunkEvents, ih]

/-- The loop driven by the failing hook, entered with the first-chunk
flag: the good prefix is processed normally (allocating the handle if the
prefix is nonempty) and the run stops at the first bad chunk with the
routine's own error. -/
theorem runLoop_procFailing_first (bad : Nat → Bool) (code : Nat)
    (assign : Nat → Nat → α → κ) (L : Nat) (comm : Option Nat)
    (s e : Nat) (d : α) (post : List (Nat × Nat × α)) (hs : bad s = true)
    (pre : List (Nat × Nat × α)) (hpre : ∀ x ∈ pre, bad x.1 = false)
    (b : Bool) (E : List (Ev κ)) :
    runLoop (procFailing bad code assign L comm) (pre ++ (s, e, d) :: post) true
        { outputHandle := b, events := E } =
      ({ outputHandle := b || !pre.isEmpty,
         events := E ++ chunkEvents assign L comm pre true ++
           [Ev.procCall s e pre.isEmpty] },
        some (PyError.userError code)) := by
  cases pre with
  | nil =>
    simp [runLoop, procFailing, hs, emitEv, chunkEvents]
  | cons c0 pre1 =>
    obtain ⟨s0, e0, d0⟩ := c0
    have h0 : bad s0 = false := hpre (s0, e0, d0) (List.mem_cons_self _ _)
    have hpre1 : ∀ x ∈ pre1, bad x.1 = false := fun x hx => hpre x (List.mem_cons_of_mem _ hx)
    have ih := fun E =>
      runLoop_procFailing_later bad code assign L comm s e d post hs pre1 E hpre1
    simp [runLoop, procFailing, h0, procVia, doChunkOutput, emitEv, chunkEvents, ih]

/-- A positive-length input with a positive chunk size yields at least
one chunk. -/
theorem inputIterator_ne_nil (L C : Nat) (read : Nat → Nat → α)
    (hL : 0 < L) (hC : 0 < C) : inputIterator L C read ≠ [] := by
  have hpos : 0 < (L + C - 1) / C := Nat.div_pos (by omega) hC
  intro hnil
  rw [inputIterator, chunkRanges] at hnil
  simp only [List.map_eq_nil_iff, List.range_eq_nil] at hnil
  omega

/-- C1: for every run that processes at least one chunk, `_do_chunk_output`
allocates the output handle exactly once, on the first chunk only, sized to
the full input length and bound to the caller-supplied communicator
(exactly one `addHandle` and one `initWrite L comm` in the trace), and on
every call it stages the chunk's class assignment via `set_data` before
persisting the row range via `write_chunk` (the trace equals the canonical
`chunkEvents`, whose per-chunk block is `setData` then `writeChunk`). -/
theorem claim_C1_output_accumulator (assign : Nat → Nat → Nat → Nat) (L C : Nat)
    (comm : Option Nat) (read : Nat → Nat → Nat) (hL : 0 < L) (hC : 0 < C) :
    ∃ st : ClfState Nat,
      run (procVia assign L comm) (inputIterator L C read) = (st, none) ∧
        st.events =
          chunkEvents assign L comm (inputIterator L C read) true ++ [Ev.finalizeWrite] ∧
        st.events.countP isInitWrite = 1 ∧
        st.events.countP isAddHandle = 1 ∧
        Ev.initWrite L comm ∈ st.events := by
  obtain ⟨c, rest, hcr⟩ :=
    List.exists_cons_of_ne_nil (inputIterator_ne_nil L C read hL hC)
  rw [hcr]
  refine ⟨_, run_procVia assign L comm c rest, rfl, ?_, ?_, ?_⟩
  · simp [List.countP_append, chunkEvents_first_countP_initWrite, isInitWrite,
      List.countP_cons]
  · simp [List.countP_append, chunkEvents_first_countP_addHandle, isAddHandle,
      List.countP_cons]
  · obtain ⟨s, e, d⟩ := c
    simp [chunkEvents]

/-- Witness for C1 at `L = 5`, `C = 2`. -/
theorem claim_C1_witness :
    (0 : Nat) < 5 ∧ (0 : Nat) < 2 ∧
      ∃ st : ClfState Nat,
        run (procVia (fun s _ _ => s) 5 none) (inputIterator 5 2 (fun _ _ => 0)) =
            (st, none) ∧
          st.events =
            chunkEvents (fun s _ _ => s) 5 none (inputIterator 5 2 (fun _ _ => 0)) true ++
              [Ev.finalizeWrite] ∧
          st.events.countP isInitWrite = 1 ∧
          st.events.countP isAddHandle = 1 ∧
          Ev.initWrite 5 none ∈ st.events :=
  ⟨by decide, by decide,
    claim_C1_output_accumulator (fun s _ _ => s) 5 2 none (fun _ _ => 0)
      (by decide) (by decide)⟩

/-- C2 counterexample: on the concrete zero-chunk run the loop body never
executes, `_finalize_run` dereferences the never-created handle, the run
raises `AttributeError`, and `finalize_write` is delivered zero times, not
exactly once — refuting the claim read over every run regardless of the
number of chunks. -/
theorem claim_C2_counterexample :
    (run (procVia (fun s _ _ => s) 7 none) ([] : List (Nat × Nat × Nat))).2 =
        some PyError.attributeError ∧
      (run (procVia (fun s _ _ => s) 7 none)
          ([] : List (Nat × Nat × Nat))).1.events.countP isFinalizeWrite = 0 := by
  decide

/-- C2 (amended): for every run of the processing loop that processes at
least one chunk, `finalize_write` is invoked exactly once, strictly after
the last `write_chunk` (it is the final event of the trace), after the
chunk iterator is exhausted, including the single-chunk case. -/
theorem claim_C2_finalize_once (assign : Nat → Nat → Nat → Nat) (L : Nat)
    (comm : Option Nat) (c : Nat × Nat × Nat) (rest : List (Nat × Nat × Nat)) :
    (run (procVia assign L comm) (c :: rest)).2 = none ∧
      (run (procVia assign L comm) (c :: rest)).1.events.countP isFinalizeWrite = 1 ∧
      (run (procVia assign L comm) (c :: rest)).1.events.getLast? =
        some Ev.finalizeWrite := by
  rw [run_procVia]
  refine ⟨rfl, ?_, ?_⟩
  · simp [List.countP_append, chunkEvents_countP_finalizeWrite, isFinalizeWrite,
      List.countP_cons]
  · simp [List.getLast?_concat]

/-- C3: the loop processes chunks strictly in iterator order, invoking the
per-chunk hook with `(start, end, data, first)` where `first` is true only
on the first chunk (the `procCall` projection of the trace equals the call
schedule), and runs a garbage-collection pass after every chunk before the
next one (each per-chunk block of the canonical trace ends in `gcCollect`;
one `gcCollect` per chunk). -/
theorem claim_C3_run_order (assign : Nat → Nat → Nat → Nat) (L : Nat)
    (comm : Option Nat) (chunks : List (Nat × Nat × Nat)) :
    (run (procVia assign L comm) chunks).1.events.filterMap getProcCall =
        callSchedule chunks true ∧
      (run (procVia assign L comm) chunks).1.events =
        chunkEvents assign L comm chunks true ++
          (if chunks.isEmpty then [] else [Ev.finalizeWrite]) ∧
      (run (procVia assign L comm) chunks).1.events.countP isGcCollect =
        chunks.length := by
  cases chunks with
  | nil =>
    refine ⟨rfl, ?_, rfl⟩
    simp [run, runFrom, runLoop, finalizeRun, initState, chunkEvents]
  | cons c rest =>
    rw [run_procVia]
    refine ⟨?_, by simp, ?_⟩
    · simp [List.filterMap_append, chunkEvents_filterMap_getProcCall, getProcCall]
    · simp [List.countP_append, chunkEvents_countP_gcCollect, isGcCollect,
        List.countP_cons]

/-- C4: both stage variants carry the base per-chunk contract: the base
`_process_chunk` raises `NotImplementedError` immediately (for
`CatClassifier` this is modelled from the spec, as its hook resolution
lives in framework code outside `src/`), and a run over the unmodified
base hook fails on the first chunk before any chunk output: no
`write_chunk` and no handle allocation ever happen. -/
theorem claim_C4_not_implemented (s e d : Nat) (first : Bool) (st : ClfState Nat)
    (c : Nat × Nat × Nat) (rest : List (Nat × Nat × Nat)) :
    processChunk s e d first st = (st, some PyError.notImplementedError) ∧
      catProcessChunk s e d first st = (st, some PyError.notImplementedError) ∧
      (run (@processChunk Nat Nat) (c :: rest)).2 = some PyError.notImplementedError ∧
      (run (@processChunk Nat Nat) (c :: rest)).1.events.countP isWriteChunk = 0 ∧
      (run (@processChunk Nat Nat) (c :: rest)).1.events.countP isInitWrite = 0 := by
  obtain ⟨s1, e1, d1⟩ := c
  refine ⟨rfl, rfl, ?_, ?_, ?_⟩ <;>
    simp [run, runFrom, runLoop, processChunk, emitEv, initState, isWriteChunk,
      isInitWrite, List.countP_cons]

/-- C5: if the classification routine raises on some chunk, the loop does
not catch it: the original error propagates unmodified, no chunk after the
failing one is processed (the call schedule stops at the failing chunk),
already-written chunk output is kept (the trace still holds the good
prefix's writes), and `finalize_write` is never invoked. -/
theorem claim_C5_error_propagation (bad : Nat → Bool) (code : Nat)
    (assign : Nat → Nat → Nat → Nat) (L : Nat) (comm : Option Nat)
    (pre : List (Nat × Nat × Nat)) (s e d : Nat) (post : List (Nat × Nat × Nat))
    (hpre : ∀ x ∈ pre, bad x.1 = false) (hs : bad s = true) :
    run (procFailing bad code assign L comm) (pre ++ (s, e, d) :: post) =
        ({ outputHandle := !pre.isEmpty,
           events := chunkEvents assign L comm pre true ++
             [Ev.procCall s e pre.isEmpty] },
          some (PyError.userError code)) ∧
      (run (procFailing bad code assign L comm)
          (pre ++ (s, e, d) :: post)).1.events.countP isFinalizeWrite = 0 ∧
      (run (procFailing bad code assign L comm)
          (pre ++ (s, e, d) :: post)).1.events.filterMap getProcCall =
        callSchedule pre true ++ [(s, e, pre.isEmpty)] := by
  have hmain :
      run (procFailing bad code assign L comm) (pre ++ (s, e, d) :: post) =
        ({ outputHandle := !pre.isEmpty,
           events := chunkEvents assign L comm pre true ++
             [Ev.procCall s e pre.isEmpty] },
          some (PyError.userError code)) := by
    simp only [run, runFrom, initState,
      runLoop_procFailing_first bad code assign L comm s e d post hs pre hpre,
      Option.isSome_some, if_true]
    simp
  refine ⟨hmain, ?_, ?_⟩
  · rw [hmain]
    simp [List.countP_append, chunkEvents_countP_finalizeWrite, isFinalizeWrite,
      List.countP_cons]
  · rw [hmain]
    simp [List.filterMap_append, chunkEvents_filterMap_getProcCall, getProcCall]

/-- Witness for C5: one good chunk, then a chunk whose routine raises
error code 7, then one unreached chunk. -/
theorem claim_C5_witness :
    (∀ x ∈ ([(0, 2, 10)] : List (Nat × Nat × Nat)),
        (fun n : Nat => decide (n = 2)) x.1 = false) ∧
      (fun n : Nat => decide (n = 2)) 2 = true ∧
      (run (procFailing (fun n => decide (n = 2)) 7 (fun s _ _ => s) 5 none)
          ([(0, 2, 10)] ++ (2, 4, 11) :: [(4, 5, 12)]) =
        ({ outputHandle := !([((0, 2, 10) : Nat × Nat × Nat)]).isEmpty,
           events := chunkEvents (fun s _ _ => s) 5 none [(0, 2, 10)] true ++
             [Ev.procCall 2 4 ([((0, 2, 10) : Nat × Nat × Nat)]).isEmpty] },
          some (PyError.userError 7)) ∧
        (run (procFailing (fun n => decide (n = 2)) 7 (fun s _ _ => s) 5 none)
            ([(0, 2, 10)] ++ (2, 4, 11) :: [(4, 5, 12)])).1.events.countP
          isFinalizeWrite = 0 ∧
        (run (procFailing (fun n => decide (n = 2)) 7 (fun s _ _ => s) 5 none)
            ([(0, 2, 10)] ++ (2, 4, 11) :: [(4, 5, 12)])).1.events.filterMap
          getProcCall =
          callSchedule ([((0, 2, 10) : Nat × Nat × Nat)]) true ++
            [(2, 4, ([((0, 2, 10) : Nat × Nat × Nat)]).isEmpty)]) :=
  ⟨by decide, by decide,
    claim_C5_error_propagation (fun n => decide (n = 2)) 7 (fun s _ _ => s) 5 none
      [(0, 2, 10)] 2 4 11 [(4, 5, 12)] (by decide) (by decide)⟩

/-- C6: model resolution: `None` and the literal string `'None'` resolve to
no model; any other path string binds a lazy path-backed model and records
exactly that string in the configuration; a handle with a path records the
path and its data becomes the model; a handle without a path or a raw
object is attached directly; and in every case the single model slot is
overwritten (the result never depends on the previous model value). -/
theorem claim_C6_open_model (st : CatState Nat) (s pp : String) (d o : Nat)
    (m1 m2 : Option (ModelVal Nat)) (hs : s ≠ "None") :
    (openModel ModelRef.pynone st).model = none ∧
      (openModel (ModelRef.str "None") st).model = none ∧
      (openModel (ModelRef.str s) st).model = some (ModelVal.pathBacked s) ∧
      (openModel (ModelRef.str s) st).configModel = some s ∧
      (openModel (ModelRef.handle (some pp) d) st).model = some (ModelVal.direct d) ∧
      (openModel (ModelRef.handle (some pp) d) st).configModel = some pp ∧
      (openModel (ModelRef.handle none d) st).model = some (ModelVal.direct d) ∧
      (openModel (ModelRef.obj o) st).model = some (ModelVal.direct o) ∧
      (∀ r : ModelRef Nat,
        (openModel r { st with model := m1 }).model =
          (openModel r { st with model := m2 }).model) := by
  refine ⟨rfl, by simp [openModel], by simp [openModel, hs], by simp [openModel, hs],
    rfl, rfl, rfl, rfl, ?_⟩
  intro r
  cases r with
  | pynone => rfl
  | str s1 => by_cases h : s1 = "None" <;> simp [openModel, h]
  | handle p d1 => cases p <;> rfl
  | obj o1 => rfl

/-- Witness for C6 at the path string `"model.pkl"`. -/
theorem claim_C6_witness :
    ("model.pkl" : String) ≠ "None" ∧
      ((openModel ModelRef.pynone
          ({ model := none, configModel := none } : CatState Nat)).model = none ∧
        (openModel (ModelRef.str "None")
          ({ model := none, configModel := none } : CatState Nat)).model = none ∧
        (openModel (ModelRef.str "model.pkl")
            ({ model := none, configModel := none } : CatState Nat)).model =
          some (ModelVal.pathBacked "model.pkl") ∧
        (openModel (ModelRef.str "model.pkl")
            ({ model := none, configModel := none } : CatState Nat)).configModel =
          some "model.pkl" ∧
        (openModel (ModelRef.handle (some "prior.pkl") 3)
            ({ model := none, configModel := none } : CatState Nat)).model =
          some (ModelVal.direct 3) ∧
        (openModel (ModelRef.handle (some "prior.pkl") 3)
            ({ model := none, configModel := none } : CatState Nat)).configModel =
          some "prior.pkl" ∧
        (openModel (ModelRef.handle none 3)
            ({ model := none, configModel := none } : CatState Nat)).model =
          some (ModelVal.direct 3) ∧
        (openModel (ModelRef.obj 4)
            ({ model := none, configModel := none } : CatState Nat)).model =
          some (ModelVal.direct 4) ∧
        (∀ r : ModelRef Nat,
          (openModel r { ({ model := none, configModel := none } : CatState Nat) with
              model := some (ModelVal.direct 9) }).model =
            (openModel r { ({ model := none, configModel := none } : CatState Nat) with
              model := none }).model)) :=
  ⟨by decide,
    claim_C6_open_model { model := none, configModel := none } "model.pkl" "prior.pkl"
      3 4 (some (ModelVal.direct 9)) none (by decide)⟩

/-- C7: the two stage variants expose the identical public `classify`
protocol: bind the input under the `'input'` slot, run, finalize, and
return the handle registered under `'output'`, with no other steps. -/
theorem claim_C7_classify_protocol :
    catClassifyBody = pzClassifyBody ∧
      pzClassifyBody =
        [ClassifyStep.setDataSlot "input", ClassifyStep.runStage,
         ClassifyStep.finalizeStage, ClassifyStep.getHandle "output"] :=
  ⟨rfl, rfl⟩

/-- C8: with input length zero the chunk iterator yields no chunks, the
loop body never executes, and neither `initialize_write` nor `write_chunk`
is ever called (the output-handle trace is empty). -/
theorem claim_C8_empty_input (C : Nat) (read : Nat → Nat → Nat)
    (assign : Nat → Nat → Nat → Nat) (L : Nat) (comm : Option Nat) :
    inputIterator 0 C read = [] ∧
      (run (procVia assign L comm) (inputIterator 0 C read)).1.events = [] ∧
      (run (procVia assign L comm) (inputIterator 0 C read)).1.events.countP
        isInitWrite = 0 ∧
      (run (procVia assign L comm) (inputIterator 0 C read)).1.events.countP
        isWriteChunk = 0 := by
  have h0 : inputIterator 0 C read = [] := by
    have hdiv : (C - 1) / C = 0 := by
      rcases Nat.eq_zero_or_pos C with h | h
      · simp [h]
      · exact Nat.div_eq_of_lt (by omega)
    simp [inputIterator, chunkRanges, hdiv]
  refine ⟨h0, ?_, ?_, ?_⟩ <;> rw [h0] <;> rfl

/-- C9: when the iterator yields zero chunks, `run` nevertheless calls
`_finalize_run` unconditionally, which dereferences the output handle
still `None` from construction: the run raises `AttributeError` instead of
completing, and `finalize_write` is never delivered to any sink. -/
theorem claim_C9_empty_run_raises
    (proc : Nat → Nat → Nat → Bool → ClfState Nat → ClfState Nat × Option PyError) :
    run proc ([] : List (Nat × Nat × Nat)) =
        ({ outputHandle := false, events := [] }, some PyError.attributeError) ∧
      (initState : ClfState Nat).outputHandle = false ∧
      (run proc ([] : List (Nat × Nat × Nat))).1.events.countP isFinalizeWrite = 0 :=
  ⟨rfl, rfl, rfl⟩

/-- C10: invoking `classify` twice with identical input data and a fresh
output sink produces bit-identical output: the embedded classify's result
does not depend on the stage's prior handle state, so a first run and a
rerun (or any two runs) over the same input agree exactly. -/
theorem claim_C10_two_runs (assign : Nat → Nat → Nat → Nat) (L : Nat)
    (comm : Option Nat) (chunksOf : Nat → List (Nat × Nat × Nat)) (inputData : Nat)
    (c : Nat × Nat × Nat) (rest : List (Nat × Nat × Nat))
    (h : chunksOf inputData = c :: rest) (b1 b2 : Bool) :
    pzClassify (procVia assign L comm) chunksOf inputData b1 =
      pzClassify (procVia assign L comm) chunksOf inputData b2 := by
  rw [pzClassify, pzClassify, h, runFrom_procVia, runFrom_procVia]

/-- Witness for C10: a one-chunk input classified on a fresh stage and
reclassified on the used stage. -/
theorem claim_C10_witness :
    (fun _ : Nat => [((0, 2, 5) : Nat × Nat × Nat)]) 0 = (0, 2, 5) :: [] ∧
      pzClassify (procVia (fun s _ _ => s) 2 none) (fun _ => [(0, 2, 5)]) 0 false =
        pzClassify (procVia (fun s _ _ => s) 2 none) (fun _ => [(0, 2, 5)]) 0 true :=
  ⟨rfl,
    claim_C10_two_runs (fun s _ _ => s) 2 none (fun _ => [(0, 2, 5)]) 0 (0, 2, 5) []
      rfl false true⟩

end RailBase
